import Mathlib

/-!
Formal model of `src/Core/TraceLogger.cpp` (Mesen NES emulator trace logger).

The C++ class `TraceLogger` is embedded shallowly:

* machine integers become `Nat` (with explicit `% 256` / `% 2 ^ 32` where the
  C++ performs 8-bit shifts or unsigned 32-bit wraparound), C++ `int` values
  that can go negative become `Int`, and the truncating C++ `%` operator on
  `int` becomes `Int.tmod`;
* the mutable object state (`_currentPos`, `_logToFile`, `_firstLine`,
  `_outputBuffer`, the three ring caches, `_lastState`,
  `_lastDisassemblyInfo`, `_conditionRpnList`, `_options`, and the output
  file stream) becomes the record `TLState`, and every member function
  becomes an explicit state-passing function;
* the output file stream is modelled by two fields: `fileGood` (the stream
  is open and in a good state, i.e. the C++ `if(_outputFile)` test succeeds
  and `operator<<` actually appends) and `fileContents` (the bytes written
  to the currently open file; `open` with `ios::out` truncates);
* external collaborators (`ExpressionEvaluator`, `DisassemblyInfo`
  rendering, the label manager flagged by `_options.UseLabels`) are opaque
  parameters gathered in an `Env` record; `HexUtilities::ToHex` (from
  `../Utilities`, outside the studied sources) is modelled concretely as
  upper-case fixed-width hexadecimal;
* `ExecutionLogSize` (declared in the header, which is not among the studied
  sources) is kept as an explicit capacity parameter `C`;
* the `SimpleLock` acquisitions and `Console::Pause/Resume` calls only
  matter for concurrency, which this sequential model does not represent;
* the out-of-bounds array accesses that `GetExecutionTrace` can perform when
  `startPos` is negative (C++ undefined behaviour) are modelled by returning
  `none` from `getExecutionTrace`.
-/

namespace TraceLoggerModel

/-- The `StatusFlagFormat` enumeration from `DebuggerTypes.h`. -/
inductive StatusFlagFormat where
  | Hexadecimal
  | Text
  | Abbreviated
deriving DecidableEq

/-- The subset of `MemoryOperationType` relevant to the trace logger:
`ExecOpCode` marks an opcode fetch, every other constructor is a
side-channel (non-exec) operation. -/
inductive MemoryOperationType where
  | Read
  | Write
  | ExecOpCode
  | ExecOperand
  | DmcRead
  | DummyRead
  | DummyWrite
deriving DecidableEq

/-- The CPU `State` fields read by the trace logger.  All registers are
unsigned machine integers in C++ (`DebugPC` 16-bit, the rest 8-bit,
`CycleCount` 64-bit); they are modelled as `Nat`. -/
structure State where
  DebugPC : Nat
  SP : Nat
  A : Nat
  X : Nat
  Y : Nat
  PS : Nat
  CycleCount : Nat
deriving DecidableEq

/-- The PPU debug-state fields read by the trace logger.  `Scanline` is a
C++ `int` and can be negative (pre-render line `-1`). -/
structure PPUDebugState where
  Cycle : Nat
  Scanline : Int
  FrameCount : Nat
deriving DecidableEq

/-- The `DebugState` snapshot passed to `Log`: the logger reads its `CPU`
and `PPU` members. -/
structure DebugState where
  CPU : State
  PPU : PPUDebugState
deriving DecidableEq

/-- The `OperationInfo` metadata passed with each logged event. -/
structure OperationInfo where
  Address : Nat
  Value : Nat
  OperationType : MemoryOperationType
deriving DecidableEq

/-- The `TraceLoggerOptions` configuration record. -/
structure TraceLoggerOptions where
  ShowByteCode : Bool
  IndentCode : Bool
  ShowRegisters : Bool
  ShowPpuCycles : Bool
  ShowPpuScanline : Bool
  ShowPpuFrames : Bool
  ShowCpuCycles : Bool
  ShowExtraInfo : Bool
  UseLabels : Bool
  StatusFormat : StatusFlagFormat
  Condition : String
deriving DecidableEq

/-- Upper-case hexadecimal digits, as produced by `HexUtilities::ToHex`. -/
def hexChars : List Char :=
  ['0', '1', '2', '3', '4', '5', '6', '7', '8', '9', 'A', 'B', 'C', 'D', 'E', 'F']

/-- Model of `HexUtilities::ToHex(uint8_t)`: two upper-case hex digits. -/
def toHex8 (v : Nat) : String :=
  String.mk [hexChars.getD (v / 16 % 16) '0', hexChars.getD (v % 16) '0']

/-- Model of `HexUtilities::ToHex(uint16_t)`: four upper-case hex digits. -/
def toHex16 (v : Nat) : String :=
  toHex8 (v / 256 % 256) ++ toHex8 (v % 256)

/-- Model of `std::string(n, ' ')`. -/
def spaces (n : Nat) : String :=
  String.mk (List.replicate n ' ')

/-- The `activeStatusLetters` table of `TraceLogger::GetStatusFlag`. -/
def activeStatusLetters : List Char :=
  ['N', 'V', 'B', '-', 'D', 'I', 'Z', 'C']

/-- The `inactiveStatusLetters` table of `TraceLogger::GetStatusFlag`. -/
def inactiveStatusLetters : List Char :=
  ['n', 'v', 'b', '-', 'd', 'i', 'z', 'c']

/-- The status-flag field appended after `" P:"` by
`TraceLogger::GetStatusFlag`.  The non-hexadecimal branch iterates
`i = 0, ..., 7`, testing `ps & 0x80` and shifting the 8-bit `ps` left each
round; `padding` starts at `6`, is decremented once per emitted character,
and trailing spaces are appended only while it remains positive.  The
accumulator is `(emitted text, padding, current ps value)`; `ps` enters as
a `uint8_t`, hence the initial `% 256`. -/
def statusFlagBody (statusFormat : StatusFlagFormat) (ps : Nat) : String :=
  match statusFormat with
  | StatusFlagFormat.Hexadecimal => toHex8 (ps % 256)
  | fmt =>
      let r := (List.range 8).foldl
        (fun (acc : String × Int × Nat) i =>
          if acc.2.2 &&& 128 ≠ 0 then
            (acc.1.push (activeStatusLetters.getD i ' '), acc.2.1 - 1, acc.2.2 * 2 % 256)
          else if fmt = StatusFlagFormat.Text then
            (acc.1.push (inactiveStatusLetters.getD i ' '), acc.2.1 - 1, acc.2.2 * 2 % 256)
          else
            (acc.1, acc.2.1, acc.2.2 * 2 % 256))
        ("", 6, ps % 256)
      if r.2.1 > 0 then r.1 ++ spaces r.2.1.toNat else r.1

/-- `TraceLogger::GetStatusFlag`: appends `" P:"` and then the formatted
status field to `output`. -/
def getStatusFlag (statusFormat : StatusFlagFormat) (output : String) (ps : Nat) : String :=
  output ++ " P:" ++ statusFlagBody statusFormat ps

/-- External collaborators of the trace logger, kept opaque.  `DI` stands
for the externally owned `DisassemblyInfo` objects; a `shared_ptr` that may
be null is `Option DI`.  The two disassembly renderers receive the
`UseLabels` flag in place of the nullable label-manager pointer, and
`evalCond` is `ExpressionEvaluator::Evaluate` restricted to its boolean
verdict. -/
structure Env (DI : Type) where
  evalCond : List Int → DebugState → OperationInfo → Bool
  getByteCode : DI → String
  toStringDis : DI → Nat → Bool → String
  getEffectiveAddressString : DI → State → Bool → String
  getRpnList : String → Option (List Int)

/-- The mutable state of a `TraceLogger` object. -/
structure TLState (DI : Type) where
  options : TraceLoggerOptions
  conditionRpnList : List Int
  currentPos : Nat
  logToFile : Bool
  firstLine : Bool
  outputBuffer : String
  fileGood : Bool
  fileContents : String
  disassemblyCache : Nat → Option DI
  cpuStateCache : Nat → State
  ppuStateCache : Nat → PPUDebugState
  lastState : DebugState
  lastDisassemblyInfo : Option DI

variable {DI : Type}

/-- `TraceLogger::GetTraceRow`: renders one row and appends it to `output`.
The `13 - byteCode.size()` and `3 - str.size()` paddings use truncated
(`Nat`) subtraction, matching the C++ behaviour on the value ranges the
emulator produces (byte code at most 8 characters, cycle/scanline text at
most 3 characters); `std::max(0, (int)(32 - code.size()))` is exactly `Nat`
truncated subtraction.  `0xFF - SP` is the stack-depth indent of a
`uint8_t` stack pointer. -/
def getTraceRow (env : Env DI) (opt : TraceLoggerOptions) (output : String)
    (cpuState : State) (ppuState : PPUDebugState) (disassemblyInfo : DI)
    (firstLine : Bool) : String :=
  let output := if firstLine then output else output ++ "\n"
  let output := output ++ toHex16 cpuState.DebugPC ++ "  "
  let output :=
    if opt.ShowByteCode then
      let byteCode := env.getByteCode disassemblyInfo
      output ++ byteCode ++ spaces (13 - byteCode.length)
    else output
  let output :=
    if opt.IndentCode then output ++ spaces (255 - cpuState.SP) else output
  let code := env.toStringDis disassemblyInfo cpuState.DebugPC opt.UseLabels
  let code := code ++ env.getEffectiveAddressString disassemblyInfo cpuState opt.UseLabels
  let code := code ++ spaces (32 - code.length)
  let output := output ++ code
  let output :=
    if opt.ShowRegisters then
      getStatusFlag opt.StatusFormat
        (output ++ " A:" ++ toHex8 cpuState.A ++ " X:" ++ toHex8 cpuState.X ++
          " Y:" ++ toHex8 cpuState.Y) cpuState.PS ++ " SP:" ++ toHex8 cpuState.SP
    else output
  let output :=
    if opt.ShowPpuCycles then
      let str := toString ppuState.Cycle
      output ++ " CYC:" ++ spaces (3 - str.length) ++ str
    else output
  let output :=
    if opt.ShowPpuScanline then
      let str := toString ppuState.Scanline
      output ++ " SL:" ++ spaces (3 - str.length) ++ str
    else output
  let output :=
    if opt.ShowPpuFrames then output ++ " FC:" ++ toString ppuState.FrameCount else output
  if opt.ShowCpuCycles then output ++ " CPU Cycle:" ++ toString cpuState.CycleCount else output

/-- `TraceLogger::ConditionMatches`: returns the boolean verdict together
with the updated state (the pending slot `_lastState` /
`_lastDisassemblyInfo` is filled exactly when a non-empty condition fails
on an `ExecOpCode` operation). -/
def conditionMatches (env : Env DI) (s : TLState DI) (state : DebugState)
    (disassemblyInfo : Option DI) (operationInfo : OperationInfo) :
    Bool × TLState DI :=
  if s.conditionRpnList ≠ [] then
    if env.evalCond s.conditionRpnList state operationInfo = false then
      if operationInfo.OperationType = MemoryOperationType.ExecOpCode then
        (false, { s with lastState := state, lastDisassemblyInfo := disassemblyInfo })
      else
        (false, s)
    else
      (true, s)
  else
    (true, s)

/-- `TraceLogger::AddRow` with ring capacity `C` (`ExecutionLogSize` in the
header): stores the triple at `_currentPos`, advances the cursor modulo
`C`, clears the pending disassembly handle, and, when a file session is
active, renders the row into `_outputBuffer`, flushing the buffer to the
file once it exceeds 32768 bytes (`operator<<` on a failed stream writes
nothing; `_outputBuffer.clear()` runs regardless). -/
def addRow (env : Env DI) (C : Nat) (s : TLState DI) (disassemblyInfo : DI)
    (state : DebugState) : TLState DI :=
  let s :=
    { s with
      disassemblyCache := Function.update s.disassemblyCache s.currentPos (some disassemblyInfo)
      cpuStateCache := Function.update s.cpuStateCache s.currentPos state.CPU
      ppuStateCache := Function.update s.ppuStateCache s.currentPos state.PPU
      currentPos := (s.currentPos + 1) % C
      lastDisassemblyInfo := none }
  if s.logToFile then
    let buf := getTraceRow env s.options s.outputBuffer state.CPU state.PPU disassemblyInfo s.firstLine
    let s :=
      if buf.length > 32768 then
        { s with
          fileContents := if s.fileGood then s.fileContents ++ buf else s.fileContents
          outputBuffer := "" }
      else
        { s with outputBuffer := buf }
    { s with firstLine := false }
  else s

/-- `TraceLogger::Log`: a null disassembly handle short-circuits everything;
otherwise the condition gate runs and, on a match, the row is added. -/
def log (env : Env DI) (C : Nat) (s : TLState DI) (state : DebugState)
    (disassemblyInfo : Option DI) (operationInfo : OperationInfo) : TLState DI :=
  match disassemblyInfo with
  | some d =>
      let r := conditionMatches env s state (some d) operationInfo
      if r.1 then addRow env C r.2 d state else r.2
  | none => s

/-- `TraceLogger::LogNonExec`: re-evaluates the condition against the
retained pending snapshot and handle; a null pending handle makes the call
a no-op. -/
def logNonExec (env : Env DI) (C : Nat) (s : TLState DI)
    (operationInfo : OperationInfo) : TLState DI :=
  match s.lastDisassemblyInfo with
  | some d =>
      let r := conditionMatches env s s.lastState (some d) operationInfo
      if r.1 then addRow env C r.2 d r.2.lastState else r.2
  | none => s

/-- `TraceLogger::StartLogging`: opens the sink (truncating; `openOk` is
the outcome of the `open` call), sets `_logToFile` and `_firstLine`.  The
C++ code sets `_logToFile = true` whether or not the open succeeded, and
does not touch `_outputBuffer`. -/
def startLogging (openOk : Bool) (s : TLState DI) : TLState DI :=
  { s with fileGood := openOk, fileContents := "", logToFile := true, firstLine := true }

/-- `TraceLogger::StopLogging`: when a session is active, flushes the
buffer to the file if the stream is good and closes it, then clears
`_logToFile`.  The buffer itself is not cleared. -/
def stopLogging (s : TLState DI) : TLState DI :=
  if s.logToFile then
    let s :=
      if s.fileGood then
        if s.outputBuffer ≠ "" then { s with fileContents := s.fileContents ++ s.outputBuffer }
        else s
      else s
    { s with logToFile := false, fileGood := false }
  else s

/-- `TraceLogger::LogStatic` (the annotation entry point), with the cycle
count of `CPU::GetCycleCount()` passed explicitly: when a session is
active, extra info is enabled and `_firstLine` is already false, it flushes
the buffer and appends the bracketed suffix directly to the file. -/
def logStatic (s : TLState DI) (lbl : String) (cycleCount : Nat) : TLState DI :=
  if s.logToFile && s.options.ShowExtraInfo && !s.firstLine then
    let s :=
      { s with
        fileContents := if s.fileGood then s.fileContents ++ s.outputBuffer else s.fileContents
        outputBuffer := "" }
    { s with
      fileContents :=
        if s.fileGood then
          s.fileContents ++ " - [" ++ lbl ++ " - Cycle: " ++ toString cycleCount ++ "]"
        else s.fileContents }
  else s

/-- `TraceLogger::SetOptions`: stores the options, clears the compiled
condition, and recompiles it when the condition text is non-empty and the
evaluator returns a program. -/
def setOptions (env : Env DI) (s : TLState DI) (options : TraceLoggerOptions) : TLState DI :=
  let s := { s with options := options, conditionRpnList := [] }
  if options.Condition ≠ "" then
    match env.getRpnList options.Condition with
    | some rpn => { s with conditionRpnList := rpn }
    | none => s
  else s

/-- The state right after the `TraceLogger` constructor: cursor `0`, no
file session, empty ring caches, null pending handle, empty condition.
`_options`, `_firstLine`, `_lastState` and the snapshot caches are not
initialised by the constructor, so their initial values are parameters. -/
def initState (opt : TraceLoggerOptions) (firstLine0 : Bool) (dbg0 : DebugState)
    (cpu0 : State) (ppu0 : PPUDebugState) : TLState DI :=
  { options := opt
    conditionRpnList := []
    currentPos := 0
    logToFile := false
    firstLine := firstLine0
    outputBuffer := ""
    fileGood := false
    fileContents := ""
    disassemblyCache := fun _ => none
    cpuStateCache := fun _ => cpu0
    ppuStateCache := fun _ => ppu0
    lastState := dbg0
    lastDisassemblyInfo := none }

/-- Conversion of an unsigned 32-bit computation result to a C++ `int`
(two's-complement wraparound), used to model
`int startPos = _currentPos + ExecutionLogSize - lineCount;` where the
right-hand side is computed in `uint32_t` arithmetic. -/
def toInt32 (x : Int) : Int :=
  let r := x % 4294967296
  if r < 2147483648 then r else r - 4294967296

/-- One iteration of the `GetExecutionTrace` loop.  The C++ `%` on `int` is
truncating (`Int.tmod`), so `index` is negative whenever `startPos + i` is
negative; reading the cache arrays at a negative index is undefined
behaviour, modelled by `none`. -/
def traceStep (env : Env DI) (C : Nat) (s : TLState DI) (startPos : Int)
    (acc : Option (String × Bool)) (i : Nat) : Option (String × Bool) :=
  match acc with
  | none => none
  | some (out, firstLine) =>
      let index := Int.tmod (startPos + (i : Int)) (C : Int)
      if 0 ≤ index ∧ index < (C : Int) then
        match s.disassemblyCache index.toNat with
        | some d =>
            some (getTraceRow env s.options out (s.cpuStateCache index.toNat)
              (s.ppuStateCache index.toNat) d firstLine, false)
        | none => some (out, firstLine)
      else none

/-- `TraceLogger::GetExecutionTrace`: renders the window of `lineCount`
slots ending at the cursor, skipping empty slots; `none` models an
out-of-bounds cache access (undefined behaviour in the C++ code).  The
loop bound `(int)lineCount` and the `startPos` computation go through
`toInt32`. -/
def getExecutionTrace (env : Env DI) (C : Nat) (s : TLState DI)
    (lineCount : Nat) : Option String :=
  let startPos : Int := toInt32 ((s.currentPos : Int) + (C : Int) - (lineCount : Int))
  (((List.range (toInt32 (lineCount : Int)).toNat)).foldl
    (traceStep env C s startPos) (some ("", true))).map Prod.fst

/-- A sequence of `AddRow` calls, oldest first. -/
def writeRows (env : Env DI) (C : Nat) (s : TLState DI)
    (rows : List (DI × DebugState)) : TLState DI :=
  rows.foldl (fun s r => addRow env C s r.1 r.2) s

/-- The fold step used to render a list of ring entries in order. -/
def renderStep (env : Env DI) (opt : TraceLoggerOptions)
    (acc : String × Bool) (e : DI × State × PPUDebugState) : String × Bool :=
  (getTraceRow env opt acc.1 e.2.1 e.2.2 e.1 acc.2, false)

/-- Renders a list of ring entries in order, first line unseparated. -/
def renderList (env : Env DI) (opt : TraceLoggerOptions)
    (es : List (DI × State × PPUDebugState)) : String :=
  (es.foldl (renderStep env opt) ("", true)).1

/-- The content of ring slot `j`: the three parallel cache entries. -/
def slotTriple (s : TLState DI) (j : Nat) : Option DI × State × PPUDebugState :=
  (s.disassemblyCache j, s.cpuStateCache j, s.ppuStateCache j)

/-- The characters the abbreviated status mode emits for `ps`: the active
letter of every set bit, most significant bit first. -/
def abbrevChars (ps : Nat) : List Char :=
  (List.range 8).filterMap
    (fun i => if Nat.testBit ps (7 - i) then some (activeStatusLetters.getD i ' ') else none)

/-- A configuration with every display option off and no condition. -/
def opt0 : TraceLoggerOptions :=
  { ShowByteCode := false, IndentCode := false, ShowRegisters := false,
    ShowPpuCycles := false, ShowPpuScanline := false, ShowPpuFrames := false,
    ShowCpuCycles := false, ShowExtraInfo := false, UseLabels := false,
    StatusFormat := StatusFlagFormat.Hexadecimal, Condition := "" }

/-- `opt0` with the extra-info option enabled. -/
def optExtra : TraceLoggerOptions :=
  { opt0 with ShowExtraInfo := true }

/-- A concrete CPU snapshot at program counter `pc`. -/
def mkCpu (pc : Nat) : State :=
  { DebugPC := pc, SP := 255, A := 0, X := 0, Y := 0, PS := 0, CycleCount := 0 }

/-- A concrete PPU snapshot. -/
def ppu0c : PPUDebugState :=
  { Cycle := 0, Scanline := 0, FrameCount := 0 }

/-- A concrete debug-state snapshot at program counter `pc`. -/
def dbgAt (pc : Nat) : DebugState :=
  { CPU := mkCpu pc, PPU := ppu0c }

/-- A concrete collaborator environment over the one-point handle type:
the evaluator accepts exactly the non-exec operations, and condition
compilation always fails. -/
def envU : Env Unit :=
  { evalCond := fun _ _ op => decide (op.OperationType ≠ MemoryOperationType.ExecOpCode)
    getByteCode := fun _ => "AA"
    toStringDis := fun _ _ _ => "NOP"
    getEffectiveAddressString := fun _ _ _ => ""
    getRpnList := fun _ => none }

/-- A concrete opcode-fetch operation. -/
def opExec : OperationInfo :=
  { Address := 0, Value := 0, OperationType := MemoryOperationType.ExecOpCode }

/-- A concrete side-channel (memory read) operation. -/
def opRead : OperationInfo :=
  { Address := 0, Value := 0, OperationType := MemoryOperationType.Read }

/-- The freshly constructed logger used by the concrete scenarios. -/
def sInit : TLState Unit :=
  initState opt0 false (dbgAt 0) (mkCpu 0) ppu0c

/-- First session of the restart scenario: one row logged to an open file,
still below the 32 KiB flush threshold. -/
def c1AfterRow : TLState Unit :=
  log envU 5 (startLogging true sInit) (dbgAt 1) (some ()) opExec

/-- Restart scenario: the first session is stopped and a second session is
started on a fresh file. -/
def c1Restarted : TLState Unit :=
  startLogging true (stopLogging c1AfterRow)

/-- Restart scenario: one row logged in the second session, then the
second session is stopped, flushing to the second file. -/
def c1Final : TLState Unit :=
  stopLogging (log envU 5 c1Restarted (dbgAt 2) (some ()) opExec)

/-- A state in the middle of an active session with extra info enabled,
a healthy sink and a non-empty accumulator. -/
def s9 : TLState Unit :=
  { sInit with
    options := optExtra
    logToFile := true
    fileGood := true
    firstLine := false
    outputBuffer := "BUF"
    fileContents := "OLD" }

/-- `sInit` with a non-empty compiled condition program. -/
def s6w : TLState Unit :=
  { sInit with conditionRpnList := [1] }

/-- Three concrete ring writes, one more than the capacity 2 used by the
window witness. -/
def rows3 : List (Unit × DebugState) :=
  [((), dbgAt 1), ((), dbgAt 2), ((), dbgAt 3)]

/-! ## Helper lemmas -/

lemma addRow_currentPos (env : Env DI) (C : Nat) (s : TLState DI) (d : DI)
    (st : DebugState) : (addRow env C s d st).currentPos = (s.currentPos + 1) % C := by
  unfold addRow
  dsimp only
  split
  · split <;> rfl
  · rfl

lemma addRow_disassemblyCache (env : Env DI) (C : Nat) (s : TLState DI) (d : DI)
    (st : DebugState) :
    (addRow env C s d st).disassemblyCache =
      Function.update s.disassemblyCache s.currentPos (some d) := by
  unfold addRow
  dsimp only
  split
  · split <;> rfl
  · rfl

lemma addRow_cpuStateCache (env : Env DI) (C : Nat) (s : TLState DI) (d : DI)
    (st : DebugState) :
    (addRow env C s d st).cpuStateCache =
      Function.update s.cpuStateCache s.currentPos st.CPU := by
  unfold addRow
  dsimp only
  split
  · split <;> rfl
  · rfl

lemma addRow_ppuStateCache (env : Env DI) (C : Nat) (s : TLState DI) (d : DI)
    (st : DebugState) :
    (addRow env C s d st).ppuStateCache =
      Function.update s.ppuStateCache s.currentPos st.PPU := by
  unfold addRow
  dsimp only
  split
  · split <;> rfl
  · rfl

lemma addRow_options (env : Env DI) (C : Nat) (s : TLState DI) (d : DI)
    (st : DebugState) : (addRow env C s d st).options = s.options := by
  unfold addRow
  dsimp only
  split
  · split <;> rfl
  · rfl

lemma addRow_lastDI (env : Env DI) (C : Nat) (s : TLState DI) (d : DI)
    (st : DebugState) : (addRow env C s d st).lastDisassemblyInfo = none := by
  unfold addRow
  dsimp only
  split
  · split <;> rfl
  · rfl

lemma addRow_fileGood (env : Env DI) (C : Nat) (s : TLState DI) (d : DI)
    (st : DebugState) : (addRow env C s d st).fileGood = s.fileGood := by
  unfold addRow
  dsimp only
  split
  · split <;> rfl
  · rfl

lemma addRow_fileContents_of_bad (env : Env DI) (C : Nat) (s : TLState DI) (d : DI)
    (st : DebugState) (h : s.fileGood = false) :
    (addRow env C s d st).fileContents = s.fileContents := by
  unfold addRow
  dsimp only
  split
  · split
    · simp [h]
    · rfl
  · rfl

lemma slotTriple_addRow (env : Env DI) (C : Nat) (s : TLState DI) (d : DI)
    (st : DebugState) (j : Nat) :
    slotTriple (addRow env C s d st) j =
      if j = s.currentPos then (some d, st.CPU, st.PPU) else slotTriple s j := by
  by_cases h : j = s.currentPos <;>
    simp [slotTriple, addRow_disassemblyCache, addRow_cpuStateCache,
      addRow_ppuStateCache, Function.update_apply, h]

lemma logNonExec_of_none (env : Env DI) (C : Nat) (s : TLState DI)
    (op : OperationInfo) (h : s.lastDisassemblyInfo = none) :
    logNonExec env C s op = s := by
  unfold logNonExec
  rw [h]

lemma writeRows_append (env : Env DI) (C : Nat) (s : TLState DI)
    (rows : List (DI × DebugState)) (r : DI × DebugState) :
    writeRows env C s (rows ++ [r]) = addRow env C (writeRows env C s rows) r.1 r.2 := by
  simp [writeRows, List.foldl_append]

lemma writeRows_currentPos (env : Env DI) (C : Nat) (hC : 0 < C) :
    ∀ (rows : List (DI × DebugState)) (s : TLState DI), s.currentPos < C →
      (writeRows env C s rows).currentPos = (s.currentPos + rows.length) % C := by
  intro rows
  induction rows with
  | nil => intro s hs; simp [writeRows, Nat.mod_eq_of_lt hs]
  | cons r rest ih =>
      intro s hs
      have h1 : writeRows env C s (r :: rest) =
          writeRows env C (addRow env C s r.1 r.2) rest := rfl
      rw [h1, ih _ (by rw [addRow_currentPos]; exact Nat.mod_lt _ hC)]
      rw [addRow_currentPos, Nat.mod_add_mod]
      simp only [List.length_cons]
      congr 1
      omega

lemma writeRows_options (env : Env DI) (C : Nat) :
    ∀ (rows : List (DI × DebugState)) (s : TLState DI),
      (writeRows env C s rows).options = s.options := by
  intro rows
  induction rows with
  | nil => intro s; rfl
  | cons r rest ih =>
      intro s
      have h1 : writeRows env C s (r :: rest) =
          writeRows env C (addRow env C s r.1 r.2) rest := rfl
      rw [h1, ih, addRow_options]

lemma add_mod_ne_self {p m C : Nat} (hp : p < C) (hm0 : 0 < m) (hmC : m < C) :
    (p + m) % C ≠ p := by
  intro h
  have h1 : p % C = (p + m) % C := by rw [Nat.mod_eq_of_lt hp, h]
  have h2 := (Nat.modEq_iff_dvd' (Nat.le_add_right p m)).mp h1
  rw [Nat.add_sub_cancel_left] at h2
  have h3 := Nat.le_of_dvd hm0 h2
  omega

lemma toInt32_eq_self {x : Int} (h0 : 0 ≤ x) (h1 : x < 2147483648) : toInt32 x = x := by
  unfold toInt32
  rw [Int.emod_eq_of_lt h0 (by omega)]
  exact if_pos h1

lemma traceStep_index (q i C : Nat) (hC : 0 < C) :
    Int.tmod ((q : Int) + (i : Int)) (C : Int) = (((q + i) % C : Nat) : Int) := by
  rw [Int.tmod_eq_emod (by positivity) (by positivity)]
  push_cast
  ring

lemma foldl_traceStep_isSome (env : Env DI) (C : Nat) (hC : 0 < C) (s : TLState DI)
    (startPos : Int) (hsp : 0 ≤ startPos) :
    ∀ (n : Nat) (acc : String × Bool),
      ((List.range n).foldl (traceStep env C s startPos) (some acc)).isSome = true := by
  intro n
  induction n with
  | zero => intro acc; rfl
  | succ n ih =>
      intro acc
      rw [List.range_succ, List.foldl_append]
      obtain ⟨p, hp⟩ := Option.isSome_iff_exists.mp (ih acc)
      rw [hp]
      show (traceStep env C s startPos (some p) n).isSome = true
      obtain ⟨out, fl⟩ := p
      unfold traceStep
      dsimp only
      have hCz : (C : Int) ≠ 0 := by positivity
      have hge : 0 ≤ Int.tmod (startPos + (n : Int)) (C : Int) := by
        rw [Int.tmod_eq_emod (by omega) (by positivity)]
        exact Int.emod_nonneg _ hCz
      have hlt : Int.tmod (startPos + (n : Int)) (C : Int) < (C : Int) := by
        rw [Int.tmod_eq_emod (by omega) (by positivity)]
        exact Int.emod_lt_of_pos _ (by exact_mod_cast hC)
      rw [if_pos ⟨hge, hlt⟩]
      cases s.disassemblyCache (Int.toNat (Int.tmod (startPos + (n : Int)) (C : Int))) <;> rfl

lemma window_writeRows (env : Env DI) (C : Nat) (hC : 0 < C) (s0 : TLState DI)
    (hpos0 : s0.currentPos < C) (rows : List (DI × DebugState)) :
    ∀ count : Nat, count ≤ C → count ≤ rows.length →
      (List.range count).map
        (fun i => slotTriple (writeRows env C s0 rows)
          (((writeRows env C s0 rows).currentPos + (C - count) + i) % C)) =
      (rows.drop (rows.length - count)).map (fun r => (some r.1, r.2.CPU, r.2.PPU)) := by
  induction rows using List.reverseRecOn with
  | nil =>
      intro count hcC hclen
      have h0 : count = 0 := Nat.le_zero.mp (by simpa using hclen)
      subst h0
      simp
  | append_singleton rest r ih =>
      intro count hcC hclen
      cases count with
      | zero => simp
      | succ k =>
          have hposS : (writeRows env C s0 rest).currentPos < C := by
            rw [writeRows_currentPos env C hC rest s0 hpos0]
            exact Nat.mod_lt _ hC
          have hw := writeRows_append env C s0 rest r
          set s := writeRows env C s0 rest with hsdef
          have hkle : k ≤ rest.length := by
            simp only [List.length_append, List.length_singleton] at hclen
            omega
          have hA : ((s.currentPos + 1) % C + (C - (k + 1)) + k) % C = s.currentPos := by
            have e1 : (s.currentPos + 1) % C + (C - (k + 1)) + k =
                (s.currentPos + 1) % C + ((C - (k + 1)) + k) := by omega
            rw [e1, Nat.mod_add_mod]
            have e2 : s.currentPos + 1 + ((C - (k + 1)) + k) = s.currentPos + C := by omega
            rw [e2, Nat.add_mod_right, Nat.mod_eq_of_lt hposS]
          have hmap : ∀ i ∈ List.range k,
              slotTriple (addRow env C s r.1 r.2)
                (((s.currentPos + 1) % C + (C - (k + 1)) + i) % C) =
              slotTriple s ((s.currentPos + (C - k) + i) % C) := by
            intro i hi
            have hik : i < k := List.mem_range.mp hi
            have eB : ((s.currentPos + 1) % C + (C - (k + 1)) + i) % C =
                (s.currentPos + (C - k) + i) % C := by
              have e1 : (s.currentPos + 1) % C + (C - (k + 1)) + i =
                  (s.currentPos + 1) % C + ((C - (k + 1)) + i) := by omega
              rw [e1, Nat.mod_add_mod]
              congr 1
              omega
            rw [eB, slotTriple_addRow]
            have hne : (s.currentPos + (C - k) + i) % C ≠ s.currentPos := by
              have e3 : s.currentPos + (C - k) + i = s.currentPos + ((C - k) + i) := by omega
              rw [e3]
              exact add_mod_ne_self hposS (by omega) (by omega)
            rw [if_neg hne]
          simp only [hw, addRow_currentPos]
          simp only [List.range_succ, List.map_append, List.map_cons, List.map_nil]
          rw [hA, slotTriple_addRow, if_pos rfl]
          rw [List.map_congr_left hmap]
          rw [ih k (by omega) hkle]
          have e4 : (rest ++ [r]).length - (k + 1) = rest.length - k := by
            simp only [List.length_append, List.length_singleton]
            omega
          rw [e4, List.drop_append_of_le_length (by omega)]
          rw [List.map_append, List.map_cons, List.map_nil]

lemma foldl_traceStep_eq (env : Env DI) (C : Nat) (hC : 0 < C) (s : TLState DI)
    (q : Nat) (es : List (DI × State × PPUDebugState)) (hlen : es.length = C)
    (hpoint : ∀ n (hn : n < C),
      slotTriple s ((q + n) % C) =
        (some (es.get ⟨n, by omega⟩).1, (es.get ⟨n, by omega⟩).2.1,
          (es.get ⟨n, by omega⟩).2.2)) :
    ∀ n, n ≤ C → ∀ acc : String × Bool,
      (List.range n).foldl (traceStep env C s (q : Int)) (some acc) =
      some ((es.take n).foldl (renderStep env s.options) acc) := by
  intro n
  induction n with
  | zero => intro _ acc; simp
  | succ n ih =>
      intro hn acc
      have hnC : n < C := by omega
      rw [List.range_succ, List.foldl_append, ih (by omega) acc]
      have hes : es.take (n + 1) = es.take n ++ [es.get ⟨n, by omega⟩] := by
        rw [List.take_succ]
        congr 1
        rw [List.getElem?_eq_getElem (by omega)]
        rfl
      rw [hes, List.foldl_append]
      show traceStep env C s (q : Int)
          (some ((es.take n).foldl (renderStep env s.options) acc)) n =
        List.foldl (renderStep env s.options)
          ((es.take n).foldl (renderStep env s.options) acc) [es.get ⟨n, by omega⟩]
      have hq := hpoint n hnC
      simp only [slotTriple, Prod.ext_iff] at hq
      obtain ⟨h1, h2, h3⟩ := hq
      unfold traceStep
      dsimp only
      rw [traceStep_index q n C hC]
      have hub : (((q + n) % C : Nat) : Int) < (C : Int) := by
        exact_mod_cast Nat.mod_lt _ hC
      rw [if_pos ⟨by positivity, hub⟩, Int.toNat_natCast, h1]
      simp only [List.foldl_cons, List.foldl_nil, renderStep, h2, h3]

/-! ## Claim theorems -/

set_option maxRecDepth 8000

/-- C3, counterexample: in Text status-flag mode the byte `0b10010001`
does not render as the 9-character string `Nv-B-d-ZC` claimed by the spec,
neither as the bare flag field nor with the `" P:"` prefix
`GetStatusFlag` emits. -/
theorem claim_C3_counterexample :
    statusFlagBody StatusFlagFormat.Text 145 ≠ "Nv-B-d-ZC" ∧
    getStatusFlag StatusFlagFormat.Text "" 145 ≠ "Nv-B-d-ZC" := by
  decide

/-- C3, amended: in Text status-flag mode, rendering status byte
`0b10010001` with bit order N,V,B,-,D,I,Z,C produces the string
`Nvb-dizC`; for every status byte, each of the 8 bit positions emits one
character in a fixed 8-character-wide field, the active-table character
(`N`,`V`,`B`,`-`,`D`,`I`,`Z`,`C`) when the bit is set and the
inactive-table character (`n`,`v`,`b`,`-`,`d`,`i`,`z`,`c`) when it is
clear. -/
theorem claim_C3 (ps : Nat) (hps : ps < 256) :
    statusFlagBody StatusFlagFormat.Text 145 = "Nvb-dizC" ∧
    (statusFlagBody StatusFlagFormat.Text ps).length = 8 ∧
    (statusFlagBody StatusFlagFormat.Text ps).data =
      (List.range 8).map
        (fun i => if Nat.testBit ps (7 - i) then activeStatusLetters.getD i ' '
          else inactiveStatusLetters.getD i ' ') := by
  refine ⟨by decide, ?_⟩
  revert ps
  decide

/-- C3 witness: the amended theorem applied to the claim's own byte
`0b10010001 = 145`. -/
theorem claim_C3_witness :
    (145 : Nat) < 256 ∧
    (statusFlagBody StatusFlagFormat.Text 145 = "Nvb-dizC" ∧
     (statusFlagBody StatusFlagFormat.Text 145).length = 8 ∧
     (statusFlagBody StatusFlagFormat.Text 145).data =
       (List.range 8).map
         (fun i => if Nat.testBit 145 (7 - i) then activeStatusLetters.getD i ' '
           else inactiveStatusLetters.getD i ' ')) :=
  ⟨by decide, claim_C3 145 (by decide)⟩

/-- C7, counterexample: with every status bit set (`ps = 0xFF`) the
abbreviated mode emits 8 characters; the field width is not the constant
6 the claim asserts for every status byte. -/
theorem claim_C7_counterexample :
    ¬ (statusFlagBody StatusFlagFormat.Abbreviated 255).length = 6 := by
  decide

/-- C7, amended: in abbreviated status-flag mode only set bits emit a
character (the active-table character of each set bit, most significant
first); the field is right-padded with spaces to total width 6 whenever at
most 6 characters were emitted, while a byte with 7 or 8 bits set emits 7
or 8 characters and receives no padding, so the total width is
`max 6 (number of set bits)`. -/
theorem claim_C7 (ps : Nat) (hps : ps < 256) :
    statusFlagBody StatusFlagFormat.Abbreviated ps =
      String.mk (abbrevChars ps) ++ spaces (6 - (abbrevChars ps).length) ∧
    (statusFlagBody StatusFlagFormat.Abbreviated ps).length =
      max 6 (abbrevChars ps).length := by
  revert ps
  decide

/-- C7 witness: the amended theorem applied to the byte `0b10010001`,
whose abbreviated field is `N-C` followed by three padding spaces. -/
theorem claim_C7_witness :
    (145 : Nat) < 256 ∧
    (statusFlagBody StatusFlagFormat.Abbreviated 145 =
       String.mk (abbrevChars 145) ++ spaces (6 - (abbrevChars 145).length) ∧
     (statusFlagBody StatusFlagFormat.Abbreviated 145).length =
       max 6 (abbrevChars 145).length) :=
  ⟨by decide, claim_C7 145 (by decide)⟩

/-- C10: `Log` with a null disassembly handle is a complete no-op: the
returned state is the input state (ring caches, cursor, pending slot,
accumulator and first-line flag all unchanged), for every evaluator
environment, so no condition evaluation can influence the result. -/
theorem claim_C10 (env : Env DI) (C : Nat) (s : TLState DI) (state : DebugState)
    (operationInfo : OperationInfo) :
    log env C s state none operationInfo = s := rfl

/-- C9: `LogStatic` (the annotate call) is a no-op unless a session is
active (`_logToFile`), the extra-info option is enabled, and a row has
already been written in this session (`_firstLine` is false); when all
three hold and the sink is healthy, it first flushes the accumulator to
the sink and then appends the bracketed label-and-cycle suffix directly to
the sink, regardless of the 32 KiB threshold. -/
theorem claim_C9 (s : TLState DI) (lbl : String) (cyc : Nat) :
    (s.logToFile = false → logStatic s lbl cyc = s) ∧
    (s.options.ShowExtraInfo = false → logStatic s lbl cyc = s) ∧
    (s.firstLine = true → logStatic s lbl cyc = s) ∧
    (s.logToFile = true → s.options.ShowExtraInfo = true → s.firstLine = false →
      s.fileGood = true →
      logStatic s lbl cyc =
        { s with
          outputBuffer := ""
          fileContents := s.fileContents ++ s.outputBuffer ++ " - [" ++ lbl ++
            " - Cycle: " ++ toString cyc ++ "]" }) := by
  refine ⟨fun h => ?_, fun h => ?_, fun h => ?_, fun h1 h2 h3 h4 => ?_⟩
  · simp [logStatic, h]
  · simp [logStatic, h]
  · simp [logStatic, h]
  · simp [logStatic, h1, h2, h3, h4]

/-- C9 witness: the flush-and-append branch evaluated on a concrete
mid-session state with buffered text `BUF` and file content `OLD`. -/
theorem claim_C9_witness :
    s9.logToFile = true ∧ s9.options.ShowExtraInfo = true ∧ s9.firstLine = false ∧
    s9.fileGood = true ∧
    logStatic s9 "mark" 7 =
      { s9 with
        outputBuffer := ""
        fileContents := s9.fileContents ++ s9.outputBuffer ++ " - [" ++ "mark" ++
          " - Cycle: " ++ toString 7 ++ "]" } :=
  ⟨rfl, rfl, rfl, rfl, (claim_C9 s9 "mark" 7).2.2.2 rfl rfl rfl rfl⟩

/-- C2, counterexample: when the file open fails, `StartLogging` still
sets `_logToFile = true`, so the controller does transition to the
recording state, contrary to the claim. -/
theorem claim_C2_counterexample :
    ¬ (startLogging false sInit).logToFile = false := by
  decide

/-- C2, amended: even when `startSession` fails to open the sink, the
controller still transitions to `Recording` (`_logToFile = true`); rows
are rendered and writes to the failed sink are attempted but have no
effect (no byte ever reaches a file), and Ring Store recording continues
unaffected (slot written, cursor advanced). -/
theorem claim_C2 (env : Env DI) (C : Nat) (s sr : TLState DI) (d : DI)
    (st : DebugState) (hbad : sr.fileGood = false) :
    (startLogging false s).logToFile = true ∧
    (startLogging false s).fileGood = false ∧
    (startLogging false s).fileContents = "" ∧
    (addRow env C sr d st).fileContents = sr.fileContents ∧
    (addRow env C sr d st).fileGood = false ∧
    (addRow env C sr d st).currentPos = (sr.currentPos + 1) % C ∧
    (addRow env C sr d st).disassemblyCache =
      Function.update sr.disassemblyCache sr.currentPos (some d) := by
  refine ⟨rfl, rfl, rfl, ?_, ?_, ?_, ?_⟩
  · exact addRow_fileContents_of_bad env C sr d st hbad
  · rw [addRow_fileGood]; exact hbad
  · exact addRow_currentPos env C sr d st
  · exact addRow_disassemblyCache env C sr d st

/-- C2 witness: the amended theorem on the concrete failed-open session
state. -/
theorem claim_C2_witness :
    (startLogging false sInit).fileGood = false ∧
    ((startLogging false sInit).logToFile = true ∧
     (startLogging false sInit).fileGood = false ∧
     (startLogging false sInit).fileContents = "" ∧
     (addRow envU 5 (startLogging false sInit) () (dbgAt 1)).fileContents =
       (startLogging false sInit).fileContents ∧
     (addRow envU 5 (startLogging false sInit) () (dbgAt 1)).fileGood = false ∧
     (addRow envU 5 (startLogging false sInit) () (dbgAt 1)).currentPos =
       ((startLogging false sInit).currentPos + 1) % 5 ∧
     (addRow envU 5 (startLogging false sInit) () (dbgAt 1)).disassemblyCache =
       Function.update (startLogging false sInit).disassemblyCache
         (startLogging false sInit).currentPos (some ())) :=
  ⟨rfl, claim_C2 envU 5 sInit (startLogging false sInit) () (dbgAt 1) rfl⟩

/-- C8: with an empty compiled condition program — in particular after
`SetOptions` whose condition text fails to compile — the condition gate
returns `true` and leaves the state untouched whatever the evaluator
environment is, and every `Log` call with a non-null disassembly handle
stores exactly one Ring Store entry at the cursor and advances the cursor
by one modulo the capacity. -/
theorem claim_C8 (env env2 : Env DI) (C : Nat) (s0 s : TLState DI)
    (opt : TraceLoggerOptions) (st : DebugState) (d : DI) (op : OperationInfo)
    (hcompile : env.getRpnList opt.Condition = none)
    (hempty : s.conditionRpnList = []) :
    (setOptions env s0 opt).conditionRpnList = [] ∧
    conditionMatches env2 s st (some d) op = (true, s) ∧
    (log env2 C s st (some d) op).currentPos = (s.currentPos + 1) % C ∧
    (log env2 C s st (some d) op).disassemblyCache =
      Function.update s.disassemblyCache s.currentPos (some d) ∧
    (log env2 C s st (some d) op).cpuStateCache =
      Function.update s.cpuStateCache s.currentPos st.CPU ∧
    (log env2 C s st (some d) op).ppuStateCache =
      Function.update s.ppuStateCache s.currentPos st.PPU := by
  have hcm : conditionMatches env2 s st (some d) op = (true, s) := by
    simp [conditionMatches, hempty]
  have hlog : log env2 C s st (some d) op = addRow env2 C s d st := by
    simp [log, hcm]
  refine ⟨?_, hcm, ?_, ?_, ?_, ?_⟩
  · unfold setOptions
    dsimp only
    split
    · rw [hcompile]
    · rfl
  · rw [hlog]; exact addRow_currentPos env2 C s d st
  · rw [hlog]; exact addRow_disassemblyCache env2 C s d st
  · rw [hlog]; exact addRow_cpuStateCache env2 C s d st
  · rw [hlog]; exact addRow_ppuStateCache env2 C s d st

/-- C8 witness: the empty-condition gate and single-entry write on the
concrete fresh state, with `envU`, whose condition compiler always fails. -/
theorem claim_C8_witness :
    envU.getRpnList opt0.Condition = none ∧ sInit.conditionRpnList = [] ∧
    ((setOptions envU sInit opt0).conditionRpnList = [] ∧
     conditionMatches envU sInit (dbgAt 1) (some ()) opRead = (true, sInit) ∧
     (log envU 5 sInit (dbgAt 1) (some ()) opRead).currentPos = (sInit.currentPos + 1) % 5 ∧
     (log envU 5 sInit (dbgAt 1) (some ()) opRead).disassemblyCache =
       Function.update sInit.disassemblyCache sInit.currentPos (some ()) ∧
     (log envU 5 sInit (dbgAt 1) (some ()) opRead).cpuStateCache =
       Function.update sInit.cpuStateCache sInit.currentPos (dbgAt 1).CPU ∧
     (log envU 5 sInit (dbgAt 1) (some ()) opRead).ppuStateCache =
       Function.update sInit.ppuStateCache sInit.currentPos (dbgAt 1).PPU) :=
  ⟨rfl, rfl, claim_C8 envU envU 5 sInit sInit opt0 (dbgAt 1) () opRead rfl rfl⟩

/-- C6: when a non-empty condition fails on an opcode-fetch `Log` call,
no row is stored and the snapshot and handle are retained in the pending
slot; a later `LogNonExec` call on which the condition succeeds stores
exactly one row — built from the retained snapshot — advances the cursor
once, and clears the pending handle, after which any further `LogNonExec`
is a no-op. -/
theorem claim_C6 (env : Env DI) (C : Nat) (s : TLState DI) (st : DebugState) (d : DI)
    (op1 op2 : OperationInfo)
    (hrpn : s.conditionRpnList ≠ [])
    (hop1 : op1.OperationType = MemoryOperationType.ExecOpCode)
    (hfail : env.evalCond s.conditionRpnList st op1 = false)
    (hsucc : env.evalCond s.conditionRpnList st op2 = true) :
    (log env C s st (some d) op1).currentPos = s.currentPos ∧
    (log env C s st (some d) op1).disassemblyCache = s.disassemblyCache ∧
    (log env C s st (some d) op1).lastDisassemblyInfo = some d ∧
    (log env C s st (some d) op1).lastState = st ∧
    (logNonExec env C (log env C s st (some d) op1) op2).currentPos =
      (s.currentPos + 1) % C ∧
    (logNonExec env C (log env C s st (some d) op1) op2).disassemblyCache =
      Function.update s.disassemblyCache s.currentPos (some d) ∧
    (logNonExec env C (log env C s st (some d) op1) op2).cpuStateCache =
      Function.update s.cpuStateCache s.currentPos st.CPU ∧
    (logNonExec env C (log env C s st (some d) op1) op2).ppuStateCache =
      Function.update s.ppuStateCache s.currentPos st.PPU ∧
    (logNonExec env C (log env C s st (some d) op1) op2).lastDisassemblyInfo = none ∧
    ∀ op3, logNonExec env C (logNonExec env C (log env C s st (some d) op1) op2) op3 =
      logNonExec env C (log env C s st (some d) op1) op2 := by
  have hs1 : log env C s st (some d) op1 =
      { s with lastState := st, lastDisassemblyInfo := some d } := by
    simp [log, conditionMatches, hrpn, hfail, hop1]
  have hs2 : logNonExec env C ({ s with lastState := st, lastDisassemblyInfo := some d }) op2 =
      addRow env C ({ s with lastState := st, lastDisassemblyInfo := some d }) d st := by
    simp [logNonExec, conditionMatches, hrpn, hsucc]
  have hnone : (logNonExec env C (log env C s st (some d) op1) op2).lastDisassemblyInfo
      = none := by
    rw [hs1, hs2]; exact addRow_lastDI env C _ d st
  refine ⟨by rw [hs1], by rw [hs1], by rw [hs1], by rw [hs1], ?_, ?_, ?_, ?_, hnone, ?_⟩
  · rw [hs1, hs2, addRow_currentPos]
  · rw [hs1, hs2, addRow_disassemblyCache]
  · rw [hs1, hs2, addRow_cpuStateCache]
  · rw [hs1, hs2, addRow_ppuStateCache]
  · intro op3
    exact logNonExec_of_none env C _ op3 hnone

/-- C6 witness: a concrete run with a condition program that rejects
opcode-fetch operations and accepts reads: the opcode fetch at cursor 0
is deferred, the later read stores exactly one row from the retained
snapshot, and a second read is a no-op. -/
theorem claim_C6_witness :
    s6w.conditionRpnList ≠ [] ∧
    opExec.OperationType = MemoryOperationType.ExecOpCode ∧
    envU.evalCond s6w.conditionRpnList (dbgAt 1) opExec = false ∧
    envU.evalCond s6w.conditionRpnList (dbgAt 1) opRead = true ∧
    ((log envU 5 s6w (dbgAt 1) (some ()) opExec).currentPos = s6w.currentPos ∧
     (log envU 5 s6w (dbgAt 1) (some ()) opExec).disassemblyCache = s6w.disassemblyCache ∧
     (log envU 5 s6w (dbgAt 1) (some ()) opExec).lastDisassemblyInfo = some () ∧
     (log envU 5 s6w (dbgAt 1) (some ()) opExec).lastState = dbgAt 1 ∧
     (logNonExec envU 5 (log envU 5 s6w (dbgAt 1) (some ()) opExec) opRead).currentPos =
       (s6w.currentPos + 1) % 5 ∧
     (logNonExec envU 5 (log envU 5 s6w (dbgAt 1) (some ()) opExec) opRead).disassemblyCache =
       Function.update s6w.disassemblyCache s6w.currentPos (some ()) ∧
     (logNonExec envU 5 (log envU 5 s6w (dbgAt 1) (some ()) opExec) opRead).cpuStateCache =
       Function.update s6w.cpuStateCache s6w.currentPos (dbgAt 1).CPU ∧
     (logNonExec envU 5 (log envU 5 s6w (dbgAt 1) (some ()) opExec) opRead).ppuStateCache =
       Function.update s6w.ppuStateCache s6w.currentPos (dbgAt 1).PPU ∧
     (logNonExec envU 5 (log envU 5 s6w (dbgAt 1) (some ()) opExec) opRead).lastDisassemblyInfo
       = none ∧
     ∀ op3, logNonExec envU 5
         (logNonExec envU 5 (log envU 5 s6w (dbgAt 1) (some ()) opExec) opRead) op3 =
       logNonExec envU 5 (log envU 5 s6w (dbgAt 1) (some ()) opExec) opRead) :=
  ⟨by decide, rfl, rfl, rfl,
    claim_C6 envU 5 s6w (dbgAt 1) () opExec opRead (by decide) rfl rfl rfl⟩

/-- C4: after more than `C` writes into a ring of capacity `C`,
`GetExecutionTrace C` returns exactly the rows of the last `C` written
slots, rendered in write order, oldest first and newest last. -/
theorem claim_C4 (env : Env DI) (C : Nat) (opt : TraceLoggerOptions) (fl0 : Bool)
    (dbg0 : DebugState) (cpu0 : State) (ppu0 : PPUDebugState)
    (rows : List (DI × DebugState)) (hC : 0 < C) (hC31 : C < 2147483648)
    (hlen : C < rows.length) :
    getExecutionTrace env C (writeRows env C (initState opt fl0 dbg0 cpu0 ppu0) rows) C =
      some (renderList env opt
        ((rows.drop (rows.length - C)).map (fun r => (r.1, r.2.CPU, r.2.PPU)))) := by
  set s0 : TLState DI := initState opt fl0 dbg0 cpu0 ppu0 with hs0
  set W := writeRows env C s0 rows with hW
  have hpos0 : s0.currentPos < C := hC
  have hposW : W.currentPos < C := by
    rw [hW, writeRows_currentPos env C hC rows s0 hpos0]
    exact Nat.mod_lt _ hC
  have hoptW : W.options = opt := by
    rw [hW, writeRows_options, hs0]
    rfl
  set es : List (DI × State × PPUDebugState) :=
    (rows.drop (rows.length - C)).map (fun r => (r.1, r.2.CPU, r.2.PPU)) with hes
  have hlen_es : es.length = C := by
    rw [hes]
    simp only [List.length_map, List.length_drop]
    omega
  have hwin := window_writeRows env C hC s0 hpos0 rows C le_rfl (le_of_lt hlen)
  rw [← hW] at hwin
  simp only [Nat.sub_self, Nat.add_zero] at hwin
  have hwin2 : (List.range C).map (fun i => slotTriple W ((W.currentPos + i) % C)) =
      es.map (fun e => (some e.1, e.2.1, e.2.2)) := by
    rw [hes, List.map_map]
    exact hwin
  have hpoint : ∀ n (hn : n < C),
      slotTriple W ((W.currentPos + n) % C) =
        (some (es.get ⟨n, by omega⟩).1, (es.get ⟨n, by omega⟩).2.1,
          (es.get ⟨n, by omega⟩).2.2) := by
    intro n hn
    have hn1 : n < ((List.range C).map
        (fun i => slotTriple W ((W.currentPos + i) % C))).length := by simpa using hn
    have h5 := List.get_of_eq hwin2 ⟨n, hn1⟩
    simp only [List.get_eq_getElem, List.getElem_map, List.getElem_range] at h5
    exact h5
  unfold getExecutionTrace
  dsimp only
  have e1 : (W.currentPos : Int) + (C : Int) - (C : Int) = (W.currentPos : Int) := by ring
  rw [e1, toInt32_eq_self (by positivity) (by exact_mod_cast lt_trans hposW hC31)]
  rw [toInt32_eq_self (by positivity) (by exact_mod_cast hC31), Int.toNat_natCast]
  rw [foldl_traceStep_eq env C hC W W.currentPos es hlen_es hpoint C le_rfl ("", true)]
  rw [List.take_of_length_le (le_of_eq hlen_es)]
  simp [renderList, hoptW]

/-- C4 witness: capacity 2, three writes; the trace is the rendering of
the last two written rows. -/
theorem claim_C4_witness :
    (0 < 2 ∧ 2 < 2147483648 ∧ 2 < rows3.length) ∧
    getExecutionTrace envU 2 (writeRows envU 2 (initState opt0 false (dbgAt 0) (mkCpu 0) ppu0c) rows3) 2 =
      some (renderList envU opt0
        ((rows3.drop (rows3.length - 2)).map (fun r => (r.1, r.2.CPU, r.2.PPU)))) :=
  ⟨⟨by decide, by decide, by decide⟩,
    claim_C4 envU 2 opt0 false (dbgAt 0) (mkCpu 0) ppu0c rows3 (by decide) (by decide)
      (by decide)⟩

/-- C5, counterexample: on a fresh logger with capacity 4, requesting a
window of 5 lines makes `startPos` negative; the truncating C++ `%` keeps
the first slot index at `-1`, outside `[0, capacity)`, so the read is an
out-of-bounds access (modelled by `none`), contrary to the claim that
every `lineCount` is safe. -/
theorem claim_C5_counterexample :
    getExecutionTrace envU 4 sInit 5 = none := by
  decide

/-- C5, amended: for every `lineCount` of at most `capacity + cursor` (in
particular any `lineCount` up to the ring capacity), `GetExecutionTrace`
reads only slot indices inside `[0, capacity)` and returns whatever
populated rows exist (empty slots produce no line); for a larger
`lineCount` the computed start position is negative and the slot index
leaves `[0, capacity)`. -/
theorem claim_C5 (env : Env DI) (C : Nat) (s : TLState DI) (lineCount : Nat)
    (hC : 0 < C) (hCbound : C ≤ 1073741824) (hpos : s.currentPos < C)
    (hcount : lineCount ≤ C + s.currentPos) :
    (getExecutionTrace env C s lineCount).isSome = true := by
  unfold getExecutionTrace
  dsimp only
  have h0 : (0 : Int) ≤ (s.currentPos : Int) + (C : Int) - (lineCount : Int) := by
    omega
  have h1 : (s.currentPos : Int) + (C : Int) - (lineCount : Int) < 2147483648 := by
    omega
  rw [toInt32_eq_self h0 h1, Option.isSome_map']
  exact foldl_traceStep_isSome env C hC s _ h0 _ _

/-- C5 witness: a full-capacity window request on the fresh logger is
safe. -/
theorem claim_C5_witness :
    (0 < 4 ∧ 4 ≤ 1073741824 ∧ sInit.currentPos < 4 ∧ 4 ≤ 4 + sInit.currentPos) ∧
    (getExecutionTrace envU 4 sInit 4).isSome = true :=
  ⟨⟨by decide, by decide, by decide, by decide⟩,
    claim_C5 envU 4 sInit 4 (by decide) (by decide) (by decide) (by decide)⟩

/-- C1: contrary to the claim, `StopLogging` followed by `StartLogging`
does not reset the text accumulator: `_outputBuffer` still holds the first
session's unflushed row after the restart (only `_firstLine` is reset),
and that text is flushed again into the second session's file, whose final
contents start with the first session's buffered text. -/
theorem claim_C1 :
    c1Restarted.firstLine = true ∧
    c1Restarted.outputBuffer = c1AfterRow.outputBuffer ∧
    c1AfterRow.outputBuffer ≠ "" ∧
    (stopLogging c1AfterRow).fileContents = c1AfterRow.outputBuffer ∧
    c1Final.fileContents.take c1AfterRow.outputBuffer.length =
      c1AfterRow.outputBuffer := by
  decide

end TraceLoggerModel
